import Mathlib

/-!
Verification development for the entity scoring and retrieval engine of the
ResearchAgent repository (`code/knowledge/hybrid_scorer.py` and
`code/knowledge/store.py`).

The Python code is shallowly embedded: Python floats become real numbers,
`math.log` becomes `Real.log`, `numpy` vectors become `List ℝ`, Python
`Counter`/`dict` tables become `ℕ`-valued lookup functions built from the
corpus, and the corpus (a JSONL file of `{corpusid, knowledge}` records) is a
list of `(id, association list)` pairs.  Definition names follow the source.
-/

/-- A document's `knowledge` dict: entity name to per-document weight.
Python dict keys are unique; lookups take the first matching entry. -/
abbrev Doc := List (String × ℕ)

/-- The loaded knowledge base: `(corpusid, knowledge)` records in file order. -/
abbrev KB := List (ℕ × Doc)

/-- Deduplication keeping the first occurrence of each element, matching the
insertion-order semantics of Python dict/Counter keys. -/
def dedupKeepFirst : List String → List String
  | [] => []
  | a :: as => a :: (dedupKeepFirst as).filter (fun b => b ≠ a)

/-- The key list of a document's dict (first occurrence kept, mirroring the
uniqueness of Python dict keys). -/
def docKeys (d : Doc) : List String := dedupKeepFirst (d.map Prod.fst)

/-- The per-document weight recorded for an entity (`0` when absent). -/
def docWeight (d : Doc) (e : String) : ℕ := (d.lookup e).getD 0

/-- Whether the entity appears as a key of the document's dict. -/
def docHas (d : Doc) (e : String) : Bool := (d.lookup e).isSome

/-- `KnowledgeStore.build_entity_statistics`: one pass over the knowledge base.
For each document, every entity's weight is added to the marginal counter, and
for every key `e` of the document, every *other* key's weight is added to
`entity_cooccurrence[e][·]`.  Tables are represented by their lookup
functions. -/
def build_entity_statistics (kb : KB) : (String → ℕ) × (String → String → ℕ) :=
  kb.foldl
    (fun acc inst =>
      (fun e => acc.1 e + docWeight inst.2 e,
       fun e e2 =>
         acc.2 e e2 +
           if docHas inst.2 e ∧ e2 ≠ e then docWeight inst.2 e2 else 0))
    (fun _ => 0, fun _ _ => 0)

/-- State of a constructed `HybridScorer` object (`hybrid_scorer.py`). -/
structure HybridScorer where
  entity_cooccurrence : String → String → ℕ
  entity_counter : String → ℕ
  entity_embeddings : String → Option (List ℝ)
  alpha : ℝ
  tau : ℝ
  epsilon : ℝ
  beta : ℝ
  threshold : ℕ
  total_counts : ℝ
  r : ℝ

namespace HybridScorer

/-- `HybridScorer._compute_smoothed_cooccurrence_prob`. -/
noncomputable def _compute_smoothed_cooccurrence_prob
    (s : HybridScorer) (entity local_entity : String) : ℝ :=
  let numerator : ℝ := (s.entity_cooccurrence entity local_entity : ℝ) + s.alpha
  let denominator : ℝ := (s.entity_counter entity : ℝ) + s.alpha * s.r
  if denominator = 0 then s.epsilon
  else max s.epsilon (numerator / denominator)

/-- `np.dot` on 1-d vectors. -/
noncomputable def npDot (vec1 vec2 : List ℝ) : ℝ :=
  (List.zipWith (fun a b => a * b) vec1 vec2).sum

/-- `np.linalg.norm`: the Euclidean norm. -/
noncomputable def npNorm (vec : List ℝ) : ℝ :=
  Real.sqrt ((vec.map (fun x => x * x)).sum)

/-- `HybridScorer._cosine_similarity`. -/
noncomputable def _cosine_similarity (vec1 vec2 : List ℝ) : ℝ :=
  if vec1.length = 0 ∨ vec2.length = 0 then 0
  else if npNorm vec1 = 0 ∨ npNorm vec2 = 0 then 0
  else npDot vec1 vec2 / (npNorm vec1 * npNorm vec2)

/-- `HybridScorer._compute_embedding_fallback_prob`. -/
noncomputable def _compute_embedding_fallback_prob
    (s : HybridScorer) (entity local_entity : String) : ℝ :=
  match s.entity_embeddings entity, s.entity_embeddings local_entity with
  | some vec_entity, some vec_local =>
      max s.epsilon (s.tau * (_cosine_similarity vec_entity vec_local + 1) / 2)
  | _, _ => s.epsilon

/-- `HybridScorer._select_factor`. -/
noncomputable def _select_factor
    (s : HybridScorer) (entity local_entity : String) : ℝ :=
  if s.threshold ≤ s.entity_cooccurrence entity local_entity then
    s._compute_smoothed_cooccurrence_prob entity local_entity
  else
    s._compute_embedding_fallback_prob entity local_entity

/-- `HybridScorer._compute_log_prior`. -/
noncomputable def _compute_log_prior (s : HybridScorer) (entity : String) : ℝ :=
  if s.entity_counter entity = 0 then Real.log s.epsilon
  else Real.log (max s.epsilon ((s.entity_counter entity : ℝ) / s.total_counts))

/-- `HybridScorer._compute_log_likelihood`. -/
noncomputable def _compute_log_likelihood
    (s : HybridScorer) (entity : String) (local_entities : List String) : ℝ :=
  (local_entities.map
    (fun local_entity =>
      Real.log (max s.epsilon (s._select_factor entity local_entity)))).sum

/-- `HybridScorer._compute_log_embedding_relevance`. -/
noncomputable def _compute_log_embedding_relevance
    (s : HybridScorer) (entity : String) (local_embedding : List ℝ) : ℝ :=
  match s.entity_embeddings entity with
  | none => Real.log s.epsilon
  | some vec_entity =>
      if local_embedding.length = 0 then Real.log s.epsilon
      else
        Real.log (max s.epsilon
          ((_cosine_similarity vec_entity local_embedding + 1) / 2))

/-- `HybridScorer.score_entity`.  The optional `local_embedding` is `none` for
Python `None`; `some []` is numpy's empty array. -/
noncomputable def score_entity (s : HybridScorer) (entity : String)
    (local_entities : List String) (local_embedding : Option (List ℝ)) : ℝ :=
  let log_prior := s._compute_log_prior entity
  let log_likelihood := s._compute_log_likelihood entity local_entities
  let co_occurrence_signal := log_prior + log_likelihood
  let embedding_signal :=
    match local_embedding with
    | none => Real.log s.epsilon
    | some le =>
        if le.length = 0 then Real.log s.epsilon
        else s._compute_log_embedding_relevance entity le
  (1 - s.beta) * co_occurrence_signal + s.beta * embedding_signal

/-- The descending-score order used by `scores.sort(key=…, reverse=True)`. -/
def scoreGE (a b : String × ℝ) : Prop := b.2 ≤ a.2

instance : IsTotal (String × ℝ) scoreGE := ⟨fun a b => le_total b.2 a.2⟩

instance : IsTrans (String × ℝ) scoreGE :=
  ⟨fun _ _ _ h1 h2 => le_trans h2 h1⟩

noncomputable instance : DecidableRel scoreGE :=
  fun a b => inferInstanceAs (Decidable (b.2 ≤ a.2))

/-- `HybridScorer.score_entities_batch`: score every candidate, then stable
sort by score, descending (Python's `list.sort` is stable). -/
noncomputable def score_entities_batch (s : HybridScorer)
    (candidate_entities : List String) (local_entities : List String)
    (local_embedding : Option (List ℝ)) : List (String × ℝ) :=
  List.insertionSort scoreGE
    (candidate_entities.map
      (fun entity => (entity, s.score_entity entity local_entities local_embedding)))

/-- `HybridScorer.get_top_k_entities`. -/
noncomputable def get_top_k_entities (s : HybridScorer)
    (candidate_entities : List String) (local_entities : List String)
    (local_embedding : Option (List ℝ)) (k : ℕ) : List String :=
  ((s.score_entities_batch candidate_entities local_entities local_embedding).take k).map
    Prod.fst

/-- `HybridScorer.get_top_k_entities_with_scores`. -/
noncomputable def get_top_k_entities_with_scores (s : HybridScorer)
    (candidate_entities : List String) (local_entities : List String)
    (local_embedding : Option (List ℝ)) (k : ℕ) : List (String × ℝ) :=
  (s.score_entities_batch candidate_entities local_entities local_embedding).take k

end HybridScorer

/-- Constructed state of a `KnowledgeStore` (`store.py`): the loaded corpus,
the optional embedding table and the configuration fixed at construction.
`r = none` means the Python default (the total corpus weight). -/
structure KnowledgeStore where
  knowledge_base : KB
  entity_embeddings : String → Option (List ℝ)
  use_hybrid_scoring : Bool
  alpha : ℝ
  tau : ℝ
  epsilon : ℝ
  beta : ℝ
  threshold : ℕ
  r : Option ℝ

namespace KnowledgeStore

/-- `self.entity_counter` (first component of `build_entity_statistics`). -/
def entity_counter (st : KnowledgeStore) : String → ℕ :=
  (build_entity_statistics st.knowledge_base).1

/-- `self.entity_cooccurrence` (second component of `build_entity_statistics`). -/
def entity_cooccurrence (st : KnowledgeStore) : String → String → ℕ :=
  (build_entity_statistics st.knowledge_base).2

/-- The key set of `entity_counter` in insertion order: every entity appearing
in some document, first occurrence kept. -/
def allEntityKeys (st : KnowledgeStore) : List String :=
  dedupKeepFirst (st.knowledge_base.flatMap (fun inst => docKeys inst.2))

/-- `sum(entity_counter.values())`, used for `total_counts`. -/
def totalCounts (st : KnowledgeStore) : ℕ :=
  ((st.allEntityKeys).map st.entity_counter).sum

/-- The `HybridScorer` constructed in `KnowledgeStore.__init__` (when
`use_hybrid_scoring` is set). -/
noncomputable def hybrid_scorer (st : KnowledgeStore) : HybridScorer where
  entity_cooccurrence := st.entity_cooccurrence
  entity_counter := st.entity_counter
  entity_embeddings := st.entity_embeddings
  alpha := st.alpha
  tau := st.tau
  epsilon := st.epsilon
  beta := st.beta
  threshold := st.threshold
  total_counts := (st.totalCounts : ℝ)
  r := st.r.getD (st.totalCounts : ℝ)

/-- `self.paper2entities`: dict from corpus id to knowledge dict (built by a
dict comprehension, so a duplicated id keeps the last record). -/
def paper2entities (st : KnowledgeStore) (paper_id : ℕ) : Option Doc :=
  (st.knowledge_base.reverse.find? (fun inst => inst.1 == paper_id)).map Prod.snd

/-- Key list of the Counter row `entity_cooccurrence[e]` in insertion order:
for each document containing `e` (in corpus order), the document's other keys
(in dict order), first occurrence kept. -/
def rowKeys (st : KnowledgeStore) (e : String) : List String :=
  dedupKeepFirst
    (((st.knowledge_base.map Prod.snd).filter (fun d => docHas d e)).flatMap
      (fun d => (docKeys d).filter (fun k => k ≠ e)))

/-- `sum(entity_cooccurrence[entity].values())` (row marginal, legacy path). -/
def rowSum (st : KnowledgeStore) (e : String) : ℕ :=
  ((st.rowKeys e).map (st.entity_cooccurrence e)).sum

/-- Key order of the summed local Counter
`sum([Counter(paper2entities[pid]) for pid in paper_ids], Counter())`:
`Counter.__add__` keeps only positive entries, in first-positive-appearance
order. -/
def localKeyOrder (st : KnowledgeStore) (paper_ids : List ℕ) : List String :=
  dedupKeepFirst
    ((paper_ids.filterMap st.paper2entities).flatMap
      (fun d => (docKeys d).filter (fun e => 0 < docWeight d e)))

/-- Total multiplicity of an entity in the summed local Counter. -/
def localCount (st : KnowledgeStore) (paper_ids : List ℕ) (e : String) : ℕ :=
  ((paper_ids.filterMap st.paper2entities).map (fun d => docWeight d e)).sum

/-- `paper_entities_list = list(paper_entities.elements())`: each entity of the
summed local Counter repeated with its multiplicity, in key order. -/
def paper_entities_list (st : KnowledgeStore) (paper_ids : List ℕ) : List String :=
  (st.localKeyOrder paper_ids).flatMap
    (fun e => List.replicate (st.localCount paper_ids e) e)

/-- Value of the summed candidate Counter
`sum([entity_cooccurrence[entity] for entity in paper_entities_list], Counter())`. -/
def candidate_counts (st : KnowledgeStore) (local_entities : List String)
    (e : String) : ℕ :=
  (local_entities.map (fun l => st.entity_cooccurrence l e)).sum

/-- `candidate_entities_filtered`: the keys of the summed candidate Counter
(positive entries of each row, first appearance kept) whose summed count is at
least `1`. -/
def candidate_entities_filtered (st : KnowledgeStore)
    (local_entities : List String) : List String :=
  (dedupKeepFirst
    (local_entities.flatMap
      (fun l => (st.rowKeys l).filter (fun k => 0 < st.entity_cooccurrence l k)))).filter
    (fun e => 1 ≤ st.candidate_counts local_entities e)

/-- Componentwise sum of a nonempty stack of vectors (`np.sum(…, axis=0)`). -/
noncomputable def sumVecs : List (List ℝ) → List ℝ
  | [] => []
  | [v] => v
  | v :: vs => v.zipWith (fun a b => a + b) (sumVecs vs)

/-- `KnowledgeStore._compute_local_embedding`: the embeddings of the entities
that have one, averaged; with weights supplied, the first `len(embeddings)`
weights are normalized and fed to `np.average`.  Returns `[]` (numpy's empty
array) when no entity has an embedding. -/
noncomputable def _compute_local_embedding (st : KnowledgeStore)
    (local_entities : List String) (weights : Option (List ℝ)) : List ℝ :=
  let embeddings := local_entities.filterMap st.entity_embeddings
  if embeddings.isEmpty then []
  else
    match weights with
    | none => (sumVecs embeddings).map (fun x => x / (embeddings.length : ℝ))
    | some ws =>
        let weights_array := ws.take embeddings.length
        let normalized := weights_array.map (fun w => w / weights_array.sum)
        (sumVecs (List.zipWith (fun w v => v.map (fun x => w * x)) normalized embeddings)).map
          (fun x => x / normalized.sum)

/-- `KnowledgeStore.get_entity_log_likelihood` (legacy scorer). -/
noncomputable def get_entity_log_likelihood (st : KnowledgeStore)
    (entity : String) (paper_entities : List String) : ℝ :=
  (paper_entities.map
    (fun paper_entity =>
      Real.logb 2
        (((st.entity_cooccurrence entity paper_entity : ℝ) + 1e-16) /
          ((st.rowSum entity : ℝ) + 1e-16)))).sum

/-- `KnowledgeStore.get_entity_probability` (legacy prior). -/
noncomputable def get_entity_probability (st : KnowledgeStore) (entity : String) : ℝ :=
  (st.entity_counter entity : ℝ) / (st.totalCounts : ℝ)

/-- `KnowledgeStore._get_relevant_entities_legacy`: stable descending sort of
the candidates by the legacy score, truncated to `top_k`. -/
noncomputable def _get_relevant_entities_legacy (st : KnowledgeStore)
    (candidate_entities : List String) (local_entities : List String)
    (top_k : ℕ) : List String :=
  ((List.insertionSort HybridScorer.scoreGE
      (candidate_entities.map
        (fun entity =>
          (entity,
            st.get_entity_log_likelihood entity local_entities +
              Real.logb 2 (st.get_entity_probability entity + 1e-16))))).take top_k).map
    Prod.fst

/-- `KnowledgeStore._get_relevant_entities_hybrid`. -/
noncomputable def _get_relevant_entities_hybrid (st : KnowledgeStore)
    (candidate_entities : List String) (local_entities : List String)
    (top_k : ℕ) (weights : Option (List ℝ)) : List String :=
  (st.hybrid_scorer).get_top_k_entities candidate_entities local_entities
    (some (st._compute_local_embedding local_entities weights)) top_k

/-- `KnowledgeStore.get_relevant_entities`. -/
noncomputable def get_relevant_entities (st : KnowledgeStore)
    (paper_ids : List ℕ) (top_k : ℕ) (weights : Option (List ℝ)) : List String :=
  let paper_entities := st.paper_entities_list paper_ids
  let candidates := st.candidate_entities_filtered paper_entities
  if st.use_hybrid_scoring then
    st._get_relevant_entities_hybrid candidates paper_entities top_k weights
  else
    st._get_relevant_entities_legacy candidates paper_entities top_k

/-- `KnowledgeStore.get_relevant_entities_with_scores`. -/
noncomputable def get_relevant_entities_with_scores (st : KnowledgeStore)
    (paper_ids : List ℕ) (top_k : ℕ) (weights : Option (List ℝ)) :
    List (String × ℝ) :=
  if st.use_hybrid_scoring = false then
    (st.get_relevant_entities paper_ids top_k weights).map (fun e => (e, 0.0))
  else
    let paper_entities := st.paper_entities_list paper_ids
    let candidates := st.candidate_entities_filtered paper_entities
    (st.hybrid_scorer).get_top_k_entities_with_scores candidates paper_entities
      (some (st._compute_local_embedding paper_entities weights)) top_k

end KnowledgeStore

/-! ### Basic lemmas about the corpus model -/

theorem mem_dedupKeepFirst (e : String) (l : List String) :
    e ∈ dedupKeepFirst l ↔ e ∈ l := by
  induction l with
  | nil => simp [dedupKeepFirst]
  | cons a as ih =>
      rw [dedupKeepFirst]
      simp only [List.mem_cons, List.mem_filter, ih, decide_eq_true_eq]
      constructor
      · rintro (rfl | ⟨h, _⟩)
        · exact .inl rfl
        · exact .inr h
      · rintro (rfl | h)
        · exact .inl rfl
        · by_cases he : e = a
          · exact .inl he
          · exact .inr ⟨h, he⟩

theorem docHas_of_docWeight_pos {d : Doc} {e : String} (h : 0 < docWeight d e) :
    docHas d e = true := by
  unfold docWeight at h
  unfold docHas
  cases hl : d.lookup e with
  | none => rw [hl] at h; simp at h
  | some w => rfl

theorem docWeight_of_not_docHas {d : Doc} {e : String} (h : docHas d e = false) :
    docWeight d e = 0 := by
  unfold docHas at h
  unfold docWeight
  cases hl : d.lookup e with
  | none => rfl
  | some w => rw [hl] at h; simp at h

theorem mem_docKeys_of_docHas {d : Doc} {e : String} (h : docHas d e = true) :
    e ∈ docKeys d := by
  unfold docHas at h
  unfold docKeys
  rw [mem_dedupKeepFirst]
  induction d with
  | nil => simp at h
  | cons p rest ih =>
      rcases p with ⟨k, b⟩
      rw [List.lookup_cons] at h
      cases hk : e == k with
      | true => simp [eq_of_beq hk]
      | false =>
          rw [hk] at h
          exact List.mem_cons.mpr (.inr (ih h))

theorem exists_pos_of_sum_map_pos {α : Type} {l : List α} {f : α → ℕ}
    (h : 0 < (l.map f).sum) : ∃ x ∈ l, 0 < f x := by
  by_contra hc
  push_neg at hc
  have hz : (l.map f).sum = 0 := by
    apply List.sum_eq_zero
    intro x hx
    rcases List.mem_map.mp hx with ⟨a, ha, rfl⟩
    exact Nat.le_zero.mp (hc a ha)
  omega

theorem le_sum_map_of_mem {α : Type} {l : List α} {f : α → ℕ} {x : α}
    (hx : x ∈ l) : f x ≤ (l.map f).sum := by
  induction l with
  | nil => simp at hx
  | cons a as ih =>
      simp only [List.map_cons, List.sum_cons]
      rcases List.mem_cons.mp hx with rfl | h
      · exact Nat.le_add_right _ _
      · exact le_trans (ih h) (Nat.le_add_left _ _)

theorem build_entity_statistics_fold (e e2 : String) :
    ∀ (kb : KB) (acc : (String → ℕ) × (String → String → ℕ)),
      (kb.foldl
        (fun (acc : (String → ℕ) × (String → String → ℕ)) inst =>
          (fun e => acc.1 e + docWeight inst.2 e,
           fun e e2 =>
             acc.2 e e2 +
               if docHas inst.2 e ∧ e2 ≠ e then docWeight inst.2 e2 else 0))
        acc).1 e
        = acc.1 e + (kb.map (fun inst => docWeight inst.2 e)).sum ∧
      (kb.foldl
        (fun (acc : (String → ℕ) × (String → String → ℕ)) inst =>
          (fun e => acc.1 e + docWeight inst.2 e,
           fun e e2 =>
             acc.2 e e2 +
               if docHas inst.2 e ∧ e2 ≠ e then docWeight inst.2 e2 else 0))
        acc).2 e e2
        = acc.2 e e2 +
            (kb.map
              (fun inst =>
                if docHas inst.2 e ∧ e2 ≠ e then docWeight inst.2 e2 else 0)).sum := by
  intro kb
  induction kb with
  | nil => intro acc; simp
  | cons inst rest ih =>
      intro acc
      simp only [List.foldl_cons, List.map_cons, List.sum_cons]
      constructor
      · rw [(ih _).1]; dsimp only; omega
      · rw [(ih _).2]; dsimp only; omega

theorem entity_counter_eq (st : KnowledgeStore) (e : String) :
    st.entity_counter e =
      (st.knowledge_base.map (fun inst => docWeight inst.2 e)).sum := by
  have h := (build_entity_statistics_fold e e st.knowledge_base
    (fun _ => 0, fun _ _ => 0)).1
  simpa [KnowledgeStore.entity_counter, build_entity_statistics] using h

theorem entity_cooccurrence_eq (st : KnowledgeStore) (e e2 : String) :
    st.entity_cooccurrence e e2 =
      (st.knowledge_base.map
        (fun inst =>
          if docHas inst.2 e ∧ e2 ≠ e then docWeight inst.2 e2 else 0)).sum := by
  have h := (build_entity_statistics_fold e e2 st.knowledge_base
    (fun _ => 0, fun _ _ => 0)).2
  simpa [KnowledgeStore.entity_cooccurrence, build_entity_statistics] using h

/-! ### A small concrete corpus used by witnesses -/

/-- A two-entity example store (hybrid strategy, default configuration). -/
noncomputable def exampleStore : KnowledgeStore where
  knowledge_base := [(1, [("A", 1), ("B", 2)])]
  entity_embeddings := fun _ => none
  use_hybrid_scoring := true
  alpha := 0.01
  tau := 0.5
  epsilon := 1e-9
  beta := 0.3
  threshold := 1
  r := none

/-- Claim C4: after `build_entity_statistics`, for distinct entities `e ≠ e2`
the table entry `entity_cooccurrence[e][e2]` is the sum, over the documents
whose key set contains both `e` and `e2`, of `e2`'s per-document weight (never
a function of `e`'s weight), and `entity_counter[e]` is the sum over all
documents of `e`'s per-document weight. -/
theorem cooccurrence_accumulates_other_weight (st : KnowledgeStore)
    (e e2 : String) (h : e ≠ e2) :
    st.entity_cooccurrence e e2 =
      ((st.knowledge_base.filter
          (fun inst => docHas inst.2 e && docHas inst.2 e2)).map
        (fun inst => docWeight inst.2 e2)).sum ∧
    st.entity_counter e =
      (st.knowledge_base.map (fun inst => docWeight inst.2 e)).sum := by
  refine ⟨?_, entity_counter_eq st e⟩
  rw [entity_cooccurrence_eq]
  induction st.knowledge_base with
  | nil => simp
  | cons inst rest ih =>
      simp only [List.map_cons, List.sum_cons, List.filter_cons]
      by_cases h1 : docHas inst.2 e = true
      · by_cases h2 : docHas inst.2 e2 = true
        · rw [if_pos ⟨h1, Ne.symm h⟩]
          simp [h1, h2, ih]
        · rw [if_pos ⟨h1, Ne.symm h⟩]
          rw [docWeight_of_not_docHas (Bool.not_eq_true _ ▸ h2)]
          simp [h1, h2, ih]
      · rw [if_neg (by simp [h1])]
        simp [h1, ih]

theorem cooccurrence_accumulates_other_weight_witness :
    ("A" : String) ≠ "B" ∧
    (exampleStore.entity_cooccurrence "A" "B" =
        ((exampleStore.knowledge_base.filter
            (fun inst => docHas inst.2 "A" && docHas inst.2 "B")).map
          (fun inst => docWeight inst.2 "B")).sum ∧
      exampleStore.entity_counter "A" =
        (exampleStore.knowledge_base.map
          (fun inst => docWeight inst.2 "A")).sum) :=
  ⟨by decide, cooccurrence_accumulates_other_weight exampleStore "A" "B" (by decide)⟩

theorem mem_rowKeys_of_cooc_pos (st : KnowledgeStore) {l e : String}
    (h : 0 < st.entity_cooccurrence l e) : e ∈ st.rowKeys l := by
  rw [entity_cooccurrence_eq] at h
  rcases exists_pos_of_sum_map_pos h with ⟨inst, hinst, hpos⟩
  by_cases hc : docHas inst.2 l = true ∧ e ≠ l
  · rw [if_pos hc] at hpos
    unfold KnowledgeStore.rowKeys
    rw [mem_dedupKeepFirst]
    apply List.mem_flatMap.mpr
    refine ⟨inst.2, ?_, ?_⟩
    · exact List.mem_filter.mpr ⟨List.mem_map.mpr ⟨inst, hinst, rfl⟩, hc.1⟩
    · exact List.mem_filter.mpr
        ⟨mem_docKeys_of_docHas (docHas_of_docWeight_pos hpos), by simpa using hc.2⟩
  · rw [if_neg hc] at hpos; omega

theorem candidate_entities_filtered_nil (st : KnowledgeStore) :
    st.candidate_entities_filtered [] = [] := by
  simp [KnowledgeStore.candidate_entities_filtered, dedupKeepFirst]

/-- Claim C3: the candidate pool of `get_relevant_entities` is exactly the set
of entities with `CooccurrenceTable[e_local][e] ≥ 1` for at least one local
entity; an empty local multiset yields an empty pool and an empty result. -/
theorem candidate_pool_characterization (st : KnowledgeStore)
    (paper_ids : List ℕ) (top_k : ℕ) (weights : Option (List ℝ)) (e : String) :
    (e ∈ st.candidate_entities_filtered (st.paper_entities_list paper_ids) ↔
      ∃ l ∈ st.paper_entities_list paper_ids, 1 ≤ st.entity_cooccurrence l e) ∧
    (st.paper_entities_list paper_ids = [] →
      st.candidate_entities_filtered (st.paper_entities_list paper_ids) = [] ∧
      st.get_relevant_entities paper_ids top_k weights = []) := by
  constructor
  · constructor
    · intro hmem
      have hfc : 1 ≤ st.candidate_counts (st.paper_entities_list paper_ids) e := by
        simpa using (List.mem_filter.mp hmem).2
      unfold KnowledgeStore.candidate_counts at hfc
      rcases exists_pos_of_sum_map_pos
          (Nat.lt_of_lt_of_le Nat.zero_lt_one hfc) with ⟨l, hl, hpos⟩
      exact ⟨l, hl, hpos⟩
    · rintro ⟨l, hl, hc⟩
      apply List.mem_filter.mpr
      constructor
      · rw [mem_dedupKeepFirst]
        apply List.mem_flatMap.mpr
        refine ⟨l, hl, ?_⟩
        exact List.mem_filter.mpr
          ⟨mem_rowKeys_of_cooc_pos st hc, by simpa using hc⟩
      · have hle : st.entity_cooccurrence l e ≤
            st.candidate_counts (st.paper_entities_list paper_ids) e :=
          le_sum_map_of_mem (f := fun l => st.entity_cooccurrence l e) hl
        simpa using
          (by omega : 1 ≤ st.candidate_counts (st.paper_entities_list paper_ids) e)
  · intro hempty
    have hpool : st.candidate_entities_filtered (st.paper_entities_list paper_ids) = [] := by
      rw [hempty]; exact candidate_entities_filtered_nil st
    refine ⟨hpool, ?_⟩
    unfold KnowledgeStore.get_relevant_entities
    rw [hempty]
    simp only [candidate_entities_filtered_nil]
    cases hflag : st.use_hybrid_scoring
    · simp [hflag, KnowledgeStore._get_relevant_entities_legacy, List.insertionSort]
    · simp [hflag, KnowledgeStore._get_relevant_entities_hybrid,
        HybridScorer.get_top_k_entities, HybridScorer.score_entities_batch,
        List.insertionSort]

theorem candidate_pool_characterization_witness :
    "B" ∈ exampleStore.candidate_entities_filtered
        (exampleStore.paper_entities_list [1]) :=
  (candidate_pool_characterization exampleStore [1] 5 none "B").1.mpr
    ⟨"A", by decide, by decide⟩

theorem pairwise_trivial {α : Type} {l : List α} {R : α → α → Prop}
    (h : ∀ a b, R a b) : l.Pairwise R := by
  induction l with
  | nil => exact List.Pairwise.nil
  | cons a as ih => exact List.Pairwise.cons (fun b _ => h a b) ih


/-- A legacy-strategy example store over a two-document corpus. -/
noncomputable def exampleStoreLegacy : KnowledgeStore where
  knowledge_base := [(1, [("A", 1)]), (2, [("A", 3), ("B", 2)])]
  entity_embeddings := fun _ => none
  use_hybrid_scoring := false
  alpha := 0.01
  tau := 0.5
  epsilon := 1e-9
  beta := 0.3
  threshold := 1
  r := none

theorem with_scores_eq_of_legacy (st : KnowledgeStore) (paper_ids : List ℕ)
    (top_k : ℕ) (weights : Option (List ℝ))
    (h : st.use_hybrid_scoring = false) :
    st.get_relevant_entities_with_scores paper_ids top_k weights =
      (st.get_relevant_entities paper_ids top_k weights).map
        (fun e => (e, (0.0 : ℝ))) := by
  unfold KnowledgeStore.get_relevant_entities_with_scores
  rw [h]
  simp

/-- Claim C10: with the legacy strategy (`use_hybrid_scoring = False`),
`get_relevant_entities_with_scores` attaches the score `0.0` to every
returned entity, for every input. -/
theorem legacy_with_scores_zero (st : KnowledgeStore) (paper_ids : List ℕ)
    (top_k : ℕ) (weights : Option (List ℝ))
    (h : st.use_hybrid_scoring = false) :
    ∀ p ∈ st.get_relevant_entities_with_scores paper_ids top_k weights,
      p.2 = 0 := by
  intro p hp
  rw [with_scores_eq_of_legacy st paper_ids top_k weights h] at hp
  rcases List.mem_map.mp hp with ⟨e, -, heq⟩
  rw [← heq]
  norm_num

theorem legacy_with_scores_zero_witness :
    exampleStoreLegacy.use_hybrid_scoring = false ∧ ("B", (0 : ℝ)).2 = 0 := by
  refine ⟨rfl, ?_⟩
  apply legacy_with_scores_zero exampleStoreLegacy [1] 5 none rfl
  have hpel : exampleStoreLegacy.paper_entities_list [1] = ["A"] := by decide
  have hcef : exampleStoreLegacy.candidate_entities_filtered ["A"] = ["B"] := by
    decide
  have hgre : exampleStoreLegacy.get_relevant_entities [1] 5 none = ["B"] := by
    unfold KnowledgeStore.get_relevant_entities
    rw [hpel]
    simp only [hcef]
    simp [exampleStoreLegacy, KnowledgeStore._get_relevant_entities_legacy,
      List.insertionSort, List.orderedInsert]
  rw [with_scores_eq_of_legacy exampleStoreLegacy [1] 5 none rfl, hgre]
  norm_num

theorem gre_eq_of_legacy (st : KnowledgeStore) (paper_ids : List ℕ)
    (top_k : ℕ) (weights : Option (List ℝ))
    (h : st.use_hybrid_scoring = false) :
    st.get_relevant_entities paper_ids top_k weights =
      st._get_relevant_entities_legacy
        (st.candidate_entities_filtered (st.paper_entities_list paper_ids))
        (st.paper_entities_list paper_ids) top_k := by
  unfold KnowledgeStore.get_relevant_entities
  rw [h]
  simp

theorem gre_eq_of_hybrid (st : KnowledgeStore) (paper_ids : List ℕ)
    (top_k : ℕ) (weights : Option (List ℝ))
    (h : st.use_hybrid_scoring = true) :
    st.get_relevant_entities paper_ids top_k weights =
      ((st.hybrid_scorer.score_entities_batch
          (st.candidate_entities_filtered (st.paper_entities_list paper_ids))
          (st.paper_entities_list paper_ids)
          (some (st._compute_local_embedding (st.paper_entities_list paper_ids)
            weights))).take top_k).map Prod.fst := by
  unfold KnowledgeStore.get_relevant_entities
    KnowledgeStore._get_relevant_entities_hybrid HybridScorer.get_top_k_entities
  rw [h]
  simp

theorem with_scores_eq_of_hybrid (st : KnowledgeStore) (paper_ids : List ℕ)
    (top_k : ℕ) (weights : Option (List ℝ))
    (h : st.use_hybrid_scoring = true) :
    st.get_relevant_entities_with_scores paper_ids top_k weights =
      (st.hybrid_scorer.score_entities_batch
          (st.candidate_entities_filtered (st.paper_entities_list paper_ids))
          (st.paper_entities_list paper_ids)
          (some (st._compute_local_embedding (st.paper_entities_list paper_ids)
            weights))).take top_k := by
  unfold KnowledgeStore.get_relevant_entities_with_scores
    HybridScorer.get_top_k_entities_with_scores
  rw [h]
  simp

/-- Claim C6: the entity sequence of `get_relevant_entities_with_scores`,
truncated to `top_k`, equals `get_relevant_entities` with the same arguments,
and the scores in the returned sequence are non-increasing. -/
theorem with_scores_agrees_and_sorted (st : KnowledgeStore)
    (paper_ids : List ℕ) (top_k : ℕ) (weights : Option (List ℝ)) :
    ((st.get_relevant_entities_with_scores paper_ids top_k weights).map
        Prod.fst).take top_k
      = st.get_relevant_entities paper_ids top_k weights ∧
    (st.get_relevant_entities_with_scores paper_ids top_k weights).Pairwise
      (fun a b => b.2 ≤ a.2) := by
  cases hflag : st.use_hybrid_scoring
  · rw [with_scores_eq_of_legacy st paper_ids top_k weights hflag,
      gre_eq_of_legacy st paper_ids top_k weights hflag]
    constructor
    · rw [List.map_map]
      have hid : (Prod.fst ∘ fun e : String => (e, (0.0 : ℝ))) = id := rfl
      rw [hid, List.map_id]
      apply List.take_of_length_le
      unfold KnowledgeStore._get_relevant_entities_legacy
      calc _ = _ := List.length_map _ _
        _ ≤ top_k := List.length_take_le _ _
    · exact (List.pairwise_map).mpr (pairwise_trivial (fun a b => le_refl _))
  · rw [with_scores_eq_of_hybrid st paper_ids top_k weights hflag,
      gre_eq_of_hybrid st paper_ids top_k weights hflag]
    constructor
    · apply List.take_of_length_le
      calc _ = _ := List.length_map _ _
        _ ≤ top_k := List.length_take_le _ _
    · have hs := List.sorted_insertionSort HybridScorer.scoreGE
        ((st.candidate_entities_filtered (st.paper_entities_list paper_ids)).map
          (fun entity =>
            (entity,
              st.hybrid_scorer.score_entity entity
                (st.paper_entities_list paper_ids)
                (some (st._compute_local_embedding
                  (st.paper_entities_list paper_ids) weights)))))
      unfold HybridScorer.score_entities_batch
      exact (List.Pairwise.sublist (List.take_sublist _ _) hs).imp (fun h => h)

/-! ### Concrete scorers for counterexamples and witnesses -/

/-- A scorer whose co-occurrence weight for `("E","L")` exceeds the marginal
count of `"E"` (the statistics builder allows this because a co-occurrence
entry accumulates the *other* entity's weight). -/
noncomputable def skewedScorer : HybridScorer where
  entity_cooccurrence := fun e l => if e = "E" ∧ l = "L" then 100 else 0
  entity_counter := fun e => if e = "E" then 1 else 0
  entity_embeddings := fun _ => none
  alpha := 1
  tau := 0.5
  epsilon := 1e-9
  beta := 0.3
  threshold := 1
  total_counts := 1
  r := 1

/-- Claim C2 is false as stated: the smoothed probability is not bounded by 1.
With `alpha = 1 > 0`, `epsilon = 1e-9 > 0`, `r = 1`, co-occurrence 100 and
marginal count 1, `_compute_smoothed_cooccurrence_prob` returns `101/2`. -/
theorem smoothed_prob_gt_one_counterexample :
    0 < skewedScorer.alpha ∧ 0 < skewedScorer.epsilon ∧
    1 < skewedScorer._compute_smoothed_cooccurrence_prob "E" "L" := by
  refine ⟨by norm_num [skewedScorer], by norm_num [skewedScorer], ?_⟩
  have h : skewedScorer._compute_smoothed_cooccurrence_prob "E" "L" =
      max (1e-9 : ℝ) (101 / 2) := by
    simp only [HybridScorer._compute_smoothed_cooccurrence_prob, skewedScorer]
    norm_num
  rw [h, max_eq_right (by norm_num)]
  norm_num

/-- Claim C2 (amended): for `epsilon > 0` the smoothed probability is positive
and at least `epsilon`; it equals `epsilon` exactly when the denominator
`count(e) + alpha*r` is `0` **or** the smoothed ratio itself is at most
`epsilon`.  (The upper bound `1` claimed by the spec does not hold in
general, see the counterexample.) -/
theorem smoothed_prob_floor_characterization (s : HybridScorer)
    (entity local_entity : String) (hε : 0 < s.epsilon) :
    0 < s._compute_smoothed_cooccurrence_prob entity local_entity ∧
    s.epsilon ≤ s._compute_smoothed_cooccurrence_prob entity local_entity ∧
    (s._compute_smoothed_cooccurrence_prob entity local_entity = s.epsilon ↔
      (s.entity_counter entity : ℝ) + s.alpha * s.r = 0 ∨
      ((s.entity_cooccurrence entity local_entity : ℝ) + s.alpha) /
          ((s.entity_counter entity : ℝ) + s.alpha * s.r) ≤ s.epsilon) := by
  simp only [HybridScorer._compute_smoothed_cooccurrence_prob]
  by_cases hden : (s.entity_counter entity : ℝ) + s.alpha * s.r = 0
  · rw [if_pos hden]
    exact ⟨hε, le_refl _, by simp [hden]⟩
  · rw [if_neg hden]
    refine ⟨lt_of_lt_of_le hε (le_max_left _ _), le_max_left _ _, ?_⟩
    rw [max_eq_left_iff]
    exact ⟨fun h => Or.inr h, fun h => h.resolve_left hden⟩

theorem smoothed_prob_floor_characterization_witness :
    0 < skewedScorer.epsilon ∧
    (0 < skewedScorer._compute_smoothed_cooccurrence_prob "E" "L" ∧
      skewedScorer.epsilon ≤
        skewedScorer._compute_smoothed_cooccurrence_prob "E" "L" ∧
      (skewedScorer._compute_smoothed_cooccurrence_prob "E" "L" =
          skewedScorer.epsilon ↔
        (skewedScorer.entity_counter "E" : ℝ) +
            skewedScorer.alpha * skewedScorer.r = 0 ∨
        ((skewedScorer.entity_cooccurrence "E" "L" : ℝ) + skewedScorer.alpha) /
            ((skewedScorer.entity_counter "E" : ℝ) +
              skewedScorer.alpha * skewedScorer.r) ≤ skewedScorer.epsilon)) :=
  ⟨by norm_num [skewedScorer],
    smoothed_prob_floor_characterization skewedScorer "E" "L"
      (by norm_num [skewedScorer])⟩

/-- A hybrid store with `beta = 0`, `threshold = 2`, and no embeddings, over a
one-document corpus where the pair `("e","l")` has co-occurrence 1 (below
threshold, so the likelihood factor takes the embedding fallback). -/
noncomputable def storeNoEmb : KnowledgeStore where
  knowledge_base := [(1, [("l", 1), ("e", 1)])]
  entity_embeddings := fun _ => none
  use_hybrid_scoring := true
  alpha := 0.01
  tau := 0.5
  epsilon := 1e-9
  beta := 0
  threshold := 2
  r := none

/-- The same store with an embedding (the vector `[1]`) for every entity. -/
noncomputable def storeWithEmb : KnowledgeStore :=
  { storeNoEmb with entity_embeddings := fun _ => some [1] }

theorem cosine_one_one : HybridScorer._cosine_similarity [1] [1] = 1 := by
  unfold HybridScorer._cosine_similarity HybridScorer.npNorm HybridScorer.npDot
  norm_num

/-- Claim C1 is false as stated: with `beta = 0`, `score_entity` still depends
on the embedding table, because a pair whose co-occurrence count is below
`threshold` takes the embedding fallback inside the likelihood.  The two
stores below share the corpus and configuration (`beta = 0`) and differ only
in the embedding table, yet score the candidate `"e"` differently. -/
theorem beta_zero_dependence_counterexample :
    storeNoEmb.beta = 0 ∧
    storeWithEmb =
      { storeNoEmb with entity_embeddings := storeWithEmb.entity_embeddings } ∧
    storeNoEmb.hybrid_scorer.score_entity "e" ["l"] none ≠
      storeWithEmb.hybrid_scorer.score_entity "e" ["l"] none := by
  refine ⟨rfl, rfl, ?_⟩
  have hc1 : storeNoEmb.entity_counter "e" = 1 := by decide
  have hco1 : storeNoEmb.entity_cooccurrence "e" "l" = 1 := by decide
  have ht1 : storeNoEmb.totalCounts = 2 := by decide
  have hc2 : storeWithEmb.entity_counter "e" = 1 := by decide
  have hco2 : storeWithEmb.entity_cooccurrence "e" "l" = 1 := by decide
  have ht2 : storeWithEmb.totalCounts = 2 := by decide
  have hbeta1 : storeNoEmb.beta = 0 := rfl
  have heps1 : storeNoEmb.epsilon = 1e-9 := rfl
  have hthr1 : storeNoEmb.threshold = 2 := rfl
  have hembn : storeNoEmb.entity_embeddings = fun _ => none := rfl
  have hbeta2 : storeWithEmb.beta = 0 := rfl
  have heps2 : storeWithEmb.epsilon = 1e-9 := rfl
  have hthr2 : storeWithEmb.threshold = 2 := rfl
  have htau2 : storeWithEmb.tau = 0.5 := rfl
  have hembs : storeWithEmb.entity_embeddings = fun _ => some [1] := rfl
  have habs : (1e-9 : ℝ) ⊔ ((1e-9 : ℝ) ⊔ (1 / 2)) = (1e-9 : ℝ) ⊔ (1 / 2) := by
    rw [← max_assoc, max_self]
  have h1 : storeNoEmb.hybrid_scorer.score_entity "e" ["l"] none =
      Real.log (max (1e-9 : ℝ) (1 / 2)) + Real.log (1e-9 : ℝ) := by
    simp only [HybridScorer.score_entity, HybridScorer._compute_log_prior,
      HybridScorer._compute_log_likelihood, HybridScorer._select_factor,
      HybridScorer._compute_embedding_fallback_prob,
      KnowledgeStore.hybrid_scorer, hc1, hco1, ht1, hbeta1, heps1, hthr1, hembn]
    norm_num [hco1]
  have h2 : storeWithEmb.hybrid_scorer.score_entity "e" ["l"] none =
      Real.log (max (1e-9 : ℝ) (1 / 2)) + Real.log (max (1e-9 : ℝ) (1 / 2)) := by
    simp only [HybridScorer.score_entity, HybridScorer._compute_log_prior,
      HybridScorer._compute_log_likelihood, HybridScorer._select_factor,
      HybridScorer._compute_embedding_fallback_prob,
      KnowledgeStore.hybrid_scorer, hc2, hco2, ht2, hbeta2, heps2, hthr2, htau2,
      hembs, cosine_one_one]
    norm_num [habs, hco2]
  rw [h1, h2, max_eq_right (by norm_num : (1e-9 : ℝ) ≤ 1 / 2)]
  intro heq
  have hlog : Real.log (1e-9 : ℝ) = Real.log (1 / 2 : ℝ) := by linarith
  have hexp := congrArg Real.exp hlog
  rw [Real.exp_log (by norm_num), Real.exp_log (by norm_num)] at hexp
  norm_num at hexp

/-- Claim C1 (amended): with `beta = 0`, `score_entity` is unchanged under any
modification of the embedding table (and of the aggregated local embedding)
**provided** the candidate's co-occurrence count with every local entity
reaches `threshold`, so that the likelihood never takes the embedding
fallback.  Without that proviso the claim is false (see the counterexample). -/
theorem beta_zero_independence_above_threshold (s : HybridScorer)
    (E : String → Option (List ℝ)) (entity : String)
    (local_entities : List String) (le le' : Option (List ℝ))
    (hβ : s.beta = 0)
    (hth : ∀ l ∈ local_entities, s.threshold ≤ s.entity_cooccurrence entity l) :
    HybridScorer.score_entity { s with entity_embeddings := E } entity
        local_entities le'
      = s.score_entity entity local_entities le := by
  have hprior :
      HybridScorer._compute_log_prior { s with entity_embeddings := E } entity
        = s._compute_log_prior entity := rfl
  have hlike :
      HybridScorer._compute_log_likelihood { s with entity_embeddings := E }
          entity local_entities
        = s._compute_log_likelihood entity local_entities := by
    unfold HybridScorer._compute_log_likelihood
    congr 1
    apply List.map_congr_left
    intro l hl
    unfold HybridScorer._select_factor
    rw [if_pos (hth l hl), if_pos (hth l hl)]
    rfl
  unfold HybridScorer.score_entity
  rw [hprior, hlike]
  have hb : ({ s with entity_embeddings := E } : HybridScorer).beta = 0 := hβ
  rw [hb]
  simp only [zero_mul, add_zero, sub_zero, one_mul]

/-- A minimal scorer with `beta = 0` whose single relevant pair meets the
threshold. -/
noncomputable def plainScorer : HybridScorer where
  entity_cooccurrence := fun e l => if e = "e" ∧ l = "l" then 3 else 0
  entity_counter := fun e => if e = "e" then 2 else 0
  entity_embeddings := fun _ => none
  alpha := 0.01
  tau := 0.5
  epsilon := 1e-9
  beta := 0
  threshold := 1
  total_counts := 2
  r := 2

theorem beta_zero_independence_above_threshold_witness :
    plainScorer.beta = 0 ∧
    HybridScorer.score_entity
        { plainScorer with entity_embeddings := fun _ => some [1] } "e" ["l"]
        (some [1])
      = plainScorer.score_entity "e" ["l"] none :=
  ⟨rfl,
    beta_zero_independence_above_threshold plainScorer (fun _ => some [1]) "e"
      ["l"] none (some [1]) rfl
      (by
        intro l hl
        simp only [List.mem_singleton] at hl
        subst hl
        norm_num [plainScorer])⟩

/-! ### Checked evaluation (claim C7)

Python's `math.log` raises on nonpositive input and `/` raises on a zero
denominator.  The `..._checked` variants mirror the scorer's code with those
two partial operations made explicit, returning `none` exactly when the
Python code would raise. -/

/-- `math.log`, raising (`none`) on nonpositive input. -/
noncomputable def safeLog (x : ℝ) : Option ℝ :=
  if 0 < x then some (Real.log x) else none

/-- Float division, raising (`none`) on a zero denominator. -/
noncomputable def safeDiv (x y : ℝ) : Option ℝ :=
  if y = 0 then none else some (x / y)

namespace HybridScorer

/-- `_compute_smoothed_cooccurrence_prob` with checked division. -/
noncomputable def _compute_smoothed_cooccurrence_prob_checked
    (s : HybridScorer) (entity local_entity : String) : Option ℝ :=
  let numerator : ℝ := (s.entity_cooccurrence entity local_entity : ℝ) + s.alpha
  let denominator : ℝ := (s.entity_counter entity : ℝ) + s.alpha * s.r
  if denominator = 0 then some s.epsilon
  else (safeDiv numerator denominator).map (fun q => max s.epsilon q)

/-- `_cosine_similarity` with checked division. -/
noncomputable def _cosine_similarity_checked (vec1 vec2 : List ℝ) : Option ℝ :=
  if vec1.length = 0 ∨ vec2.length = 0 then some 0
  else if npNorm vec1 = 0 ∨ npNorm vec2 = 0 then some 0
  else safeDiv (npDot vec1 vec2) (npNorm vec1 * npNorm vec2)

/-- `_compute_embedding_fallback_prob` with checked arithmetic. -/
noncomputable def _compute_embedding_fallback_prob_checked
    (s : HybridScorer) (entity local_entity : String) : Option ℝ :=
  match s.entity_embeddings entity, s.entity_embeddings local_entity with
  | some vec_entity, some vec_local =>
      (_cosine_similarity_checked vec_entity vec_local).map
        (fun c => max s.epsilon (s.tau * (c + 1) / 2))
  | _, _ => some s.epsilon

/-- `_select_factor` with checked arithmetic. -/
noncomputable def _select_factor_checked
    (s : HybridScorer) (entity local_entity : String) : Option ℝ :=
  if s.threshold ≤ s.entity_cooccurrence entity local_entity then
    s._compute_smoothed_cooccurrence_prob_checked entity local_entity
  else
    s._compute_embedding_fallback_prob_checked entity local_entity

/-- `_compute_log_prior` with checked division and logarithm. -/
noncomputable def _compute_log_prior_checked
    (s : HybridScorer) (entity : String) : Option ℝ :=
  if s.entity_counter entity = 0 then safeLog s.epsilon
  else
    (safeDiv (s.entity_counter entity : ℝ) s.total_counts).bind
      (fun prob => safeLog (max s.epsilon prob))

/-- `_compute_log_likelihood` with checked logarithms (the running sum of the
Python loop, aborted at the first raising operation). -/
noncomputable def _compute_log_likelihood_checked
    (s : HybridScorer) (entity : String) (local_entities : List String) :
    Option ℝ :=
  local_entities.foldl
    (fun acc local_entity =>
      acc.bind (fun t =>
        (s._select_factor_checked entity local_entity).bind (fun prob =>
          (safeLog (max s.epsilon prob)).map (fun x => t + x))))
    (some 0)

/-- `_compute_log_embedding_relevance` with checked arithmetic. -/
noncomputable def _compute_log_embedding_relevance_checked
    (s : HybridScorer) (entity : String) (local_embedding : List ℝ) :
    Option ℝ :=
  match s.entity_embeddings entity with
  | none => safeLog s.epsilon
  | some vec_entity =>
      if local_embedding.length = 0 then safeLog s.epsilon
      else
        (_cosine_similarity_checked vec_entity local_embedding).bind
          (fun c => safeLog (max s.epsilon ((c + 1) / 2)))

/-- `score_entity` with checked arithmetic. -/
noncomputable def score_entity_checked (s : HybridScorer) (entity : String)
    (local_entities : List String) (local_embedding : Option (List ℝ)) :
    Option ℝ :=
  (s._compute_log_prior_checked entity).bind fun log_prior =>
    (s._compute_log_likelihood_checked entity local_entities).bind
      fun log_likelihood =>
        (match local_embedding with
          | none => safeLog s.epsilon
          | some le =>
              if le.length = 0 then safeLog s.epsilon
              else s._compute_log_embedding_relevance_checked entity le).map
          fun embedding_signal =>
            (1 - s.beta) * (log_prior + log_likelihood) +
              s.beta * embedding_signal

end HybridScorer

theorem smoothed_checked_eq (s : HybridScorer) (entity local_entity : String) :
    s._compute_smoothed_cooccurrence_prob_checked entity local_entity =
      some (s._compute_smoothed_cooccurrence_prob entity local_entity) := by
  simp only [HybridScorer._compute_smoothed_cooccurrence_prob_checked,
    HybridScorer._compute_smoothed_cooccurrence_prob, safeDiv]
  by_cases hden : (s.entity_counter entity : ℝ) + s.alpha * s.r = 0
  · rw [if_pos hden, if_pos hden]
  · rw [if_neg hden, if_neg hden, if_neg hden]
    rfl

theorem cosine_checked_eq (vec1 vec2 : List ℝ) :
    HybridScorer._cosine_similarity_checked vec1 vec2 =
      some (HybridScorer._cosine_similarity vec1 vec2) := by
  simp only [HybridScorer._cosine_similarity_checked,
    HybridScorer._cosine_similarity, safeDiv]
  by_cases h1 : vec1.length = 0 ∨ vec2.length = 0
  · rw [if_pos h1, if_pos h1]
  · rw [if_neg h1, if_neg h1]
    by_cases h2 : HybridScorer.npNorm vec1 = 0 ∨ HybridScorer.npNorm vec2 = 0
    · rw [if_pos h2, if_pos h2]
    · rw [if_neg h2, if_neg h2]
      push_neg at h2
      rw [if_neg (mul_ne_zero h2.1 h2.2)]

theorem fallback_checked_eq (s : HybridScorer) (entity local_entity : String) :
    s._compute_embedding_fallback_prob_checked entity local_entity =
      some (s._compute_embedding_fallback_prob entity local_entity) := by
  unfold HybridScorer._compute_embedding_fallback_prob_checked
    HybridScorer._compute_embedding_fallback_prob
  cases he : s.entity_embeddings entity <;>
    cases hl : s.entity_embeddings local_entity <;>
    simp [cosine_checked_eq]

theorem select_checked_eq (s : HybridScorer) (entity local_entity : String) :
    s._select_factor_checked entity local_entity =
      some (s._select_factor entity local_entity) := by
  unfold HybridScorer._select_factor_checked HybridScorer._select_factor
  by_cases h : s.threshold ≤ s.entity_cooccurrence entity local_entity
  · rw [if_pos h, if_pos h, smoothed_checked_eq]
  · rw [if_neg h, if_neg h, fallback_checked_eq]

theorem prior_checked_eq (s : HybridScorer) (entity : String)
    (hε : 0 < s.epsilon)
    (htot : ∀ e, (s.entity_counter e : ℝ) ≤ s.total_counts) :
    s._compute_log_prior_checked entity =
      some (s._compute_log_prior entity) := by
  unfold HybridScorer._compute_log_prior_checked HybridScorer._compute_log_prior
  by_cases hc : s.entity_counter entity = 0
  · rw [if_pos hc, if_pos hc]
    unfold safeLog
    rw [if_pos hε]
  · rw [if_neg hc, if_neg hc]
    have hcpos : (0 : ℝ) < (s.entity_counter entity : ℝ) :=
      Nat.cast_pos.mpr (Nat.pos_of_ne_zero hc)
    have htpos : (0 : ℝ) < s.total_counts := lt_of_lt_of_le hcpos (htot entity)
    unfold safeDiv
    rw [if_neg (ne_of_gt htpos)]
    simp only [Option.some_bind]
    unfold safeLog
    rw [if_pos (lt_of_lt_of_le hε (le_max_left _ _))]

theorem likelihood_fold_eq (s : HybridScorer) (entity : String)
    (hε : 0 < s.epsilon) :
    ∀ (local_entities : List String) (t : ℝ),
      local_entities.foldl
        (fun acc local_entity =>
          acc.bind (fun t =>
            (s._select_factor_checked entity local_entity).bind (fun prob =>
              (safeLog (max s.epsilon prob)).map (fun x => t + x))))
        (some t)
      = some (t +
          (local_entities.map
            (fun l =>
              Real.log (max s.epsilon (s._select_factor entity l)))).sum) := by
  intro local_entities
  induction local_entities with
  | nil => intro t; simp
  | cons l ls ih =>
      intro t
      simp only [List.foldl_cons, List.map_cons, List.sum_cons]
      rw [select_checked_eq]
      simp only [Option.some_bind]
      have hlog : safeLog (max s.epsilon (s._select_factor entity l)) =
          some (Real.log (max s.epsilon (s._select_factor entity l))) := by
        unfold safeLog
        rw [if_pos (lt_of_lt_of_le hε (le_max_left _ _))]
      rw [hlog]
      simp only [Option.map_some']
      rw [ih]
      congr 1
      ring

theorem likelihood_checked_eq (s : HybridScorer) (entity : String)
    (local_entities : List String) (hε : 0 < s.epsilon) :
    s._compute_log_likelihood_checked entity local_entities =
      some (s._compute_log_likelihood entity local_entities) := by
  unfold HybridScorer._compute_log_likelihood_checked
    HybridScorer._compute_log_likelihood
  rw [likelihood_fold_eq s entity hε local_entities 0]
  norm_num

theorem embrel_checked_eq (s : HybridScorer) (entity : String)
    (local_embedding : List ℝ) (hε : 0 < s.epsilon) :
    s._compute_log_embedding_relevance_checked entity local_embedding =
      some (s._compute_log_embedding_relevance entity local_embedding) := by
  unfold HybridScorer._compute_log_embedding_relevance_checked
    HybridScorer._compute_log_embedding_relevance
  cases he : s.entity_embeddings entity with
  | none =>
      unfold safeLog
      rw [if_pos hε]
  | some vec_entity =>
      dsimp only
      by_cases hlen : local_embedding.length = 0
      · rw [if_pos hlen, if_pos hlen]
        unfold safeLog
        rw [if_pos hε]
      · rw [if_neg hlen, if_neg hlen, cosine_checked_eq]
        simp only [Option.some_bind]
        unfold safeLog
        rw [if_pos (lt_of_lt_of_le hε (le_max_left _ _))]

/-- Claim C7: `score_entity` is total — it never hits a raising operation
(`math.log` of a nonpositive value or a division by zero) for any candidate,
local entity list, and optional local embedding, and returns a (finite) real
number: every probability fed to a logarithm has already been floored at
`epsilon > 0`.  The hypotheses record the configuration invariant
`epsilon > 0` and the construction invariant that `total_counts` dominates
every marginal count. -/
theorem score_entity_total_safe (s : HybridScorer) (entity : String)
    (local_entities : List String) (local_embedding : Option (List ℝ))
    (hε : 0 < s.epsilon)
    (htot : ∀ e, (s.entity_counter e : ℝ) ≤ s.total_counts) :
    s.score_entity_checked entity local_entities local_embedding =
      some (s.score_entity entity local_entities local_embedding) := by
  unfold HybridScorer.score_entity_checked HybridScorer.score_entity
  rw [prior_checked_eq s entity hε htot,
    likelihood_checked_eq s entity local_entities hε]
  have hemb :
      (match local_embedding with
        | none => safeLog s.epsilon
        | some le =>
            if le.length = 0 then safeLog s.epsilon
            else s._compute_log_embedding_relevance_checked entity le) =
      some (match local_embedding with
        | none => Real.log s.epsilon
        | some le =>
            if le.length = 0 then Real.log s.epsilon
            else s._compute_log_embedding_relevance entity le) := by
    cases local_embedding with
    | none =>
        unfold safeLog
        rw [if_pos hε]
    | some le =>
        dsimp only
        by_cases hlen : le.length = 0
        · rw [if_pos hlen, if_pos hlen]
          unfold safeLog
          rw [if_pos hε]
        · rw [if_neg hlen, if_neg hlen]
          exact embrel_checked_eq s entity le hε
  rw [hemb]
  rfl

theorem score_entity_total_safe_witness :
    0 < plainScorer.epsilon ∧
    plainScorer.score_entity_checked "e" ["l"] none =
      some (plainScorer.score_entity "e" ["l"] none) :=
  ⟨by norm_num [plainScorer],
    score_entity_total_safe plainScorer "e" ["l"] none
      (by norm_num [plainScorer])
      (by
        intro e
        by_cases he : e = "e" <;> norm_num [plainScorer, he])⟩

/-! ### Cosine similarity bounds (claim C8) -/

theorem sum_sq_nonneg (v : List ℝ) : 0 ≤ (v.map (fun x => x * x)).sum :=
  List.sum_nonneg (by
    intro x hx
    rcases List.mem_map.mp hx with ⟨a, -, rfl⟩
    exact mul_self_nonneg a)

theorem list_cauchy_schwarz : ∀ (v w : List ℝ),
    (HybridScorer.npDot v w) ^ 2 ≤
      ((v.map (fun x => x * x)).sum) * ((w.map (fun x => x * x)).sum) := by
  intro v
  induction v with
  | nil =>
      intro w
      simp [HybridScorer.npDot]
  | cons a v ih =>
      intro w
      cases w with
      | nil => simp [HybridScorer.npDot]
      | cons b w =>
          have hv := sum_sq_nonneg v
          have hw := sum_sq_nonneg w
          have hd := ih w
          simp only [HybridScorer.npDot, List.zipWith_cons_cons, List.map_cons,
            List.sum_cons] at *
          set d := (List.zipWith (fun a b => a * b) v w).sum with hdd
          set SV := (v.map (fun x => x * x)).sum with hsv
          set SW := (w.map (fun x => x * x)).sum with hsw
          have hX : 0 ≤ a * a * SW + b * b * SV :=
            add_nonneg (mul_nonneg (mul_self_nonneg a) hw)
              (mul_nonneg (mul_self_nonneg b) hv)
          have hsq : (2 * (a * b * d)) ^ 2 ≤ (a * a * SW + b * b * SV) ^ 2 := by
            nlinarith [sq_nonneg (a * a * SW - b * b * SV),
              mul_nonneg (mul_nonneg (mul_self_nonneg a) (mul_self_nonneg b))
                (sub_nonneg.mpr hd)]
          have key : 2 * (a * b * d) ≤ a * a * SW + b * b * SV := by
            by_contra hlt
            push_neg at hlt
            have hcon : (a * a * SW + b * b * SV) ^ 2 < (2 * (a * b * d)) ^ 2 :=
              pow_lt_pow_left₀ hlt hX (by norm_num)
            linarith
          nlinarith [key, hd]

theorem cosine_le_one (v w : List ℝ) :
    HybridScorer._cosine_similarity v w ≤ 1 := by
  unfold HybridScorer._cosine_similarity
  split_ifs with h1 h2
  · norm_num
  · norm_num
  · push_neg at h2
    have hn1 : 0 < HybridScorer.npNorm v :=
      lt_of_le_of_ne (Real.sqrt_nonneg _) (Ne.symm h2.1)
    have hn2 : 0 < HybridScorer.npNorm w :=
      lt_of_le_of_ne (Real.sqrt_nonneg _) (Ne.symm h2.2)
    rw [div_le_one (mul_pos hn1 hn2)]
    calc HybridScorer.npDot v w ≤ |HybridScorer.npDot v w| := le_abs_self _
      _ = Real.sqrt ((HybridScorer.npDot v w) ^ 2) :=
          (Real.sqrt_sq_eq_abs _).symm
      _ ≤ Real.sqrt (((v.map (fun x => x * x)).sum) *
            ((w.map (fun x => x * x)).sum)) :=
          Real.sqrt_le_sqrt (list_cauchy_schwarz v w)
      _ = HybridScorer.npNorm v * HybridScorer.npNorm w := by
          unfold HybridScorer.npNorm
          rw [Real.sqrt_mul (sum_sq_nonneg v)]

theorem fallback_eq_of_embeddings (s : HybridScorer) {entity local_entity : String}
    {v w : List ℝ} (he : s.entity_embeddings entity = some v)
    (hl : s.entity_embeddings local_entity = some w) :
    s._compute_embedding_fallback_prob entity local_entity =
      max s.epsilon (s.tau * (HybridScorer._cosine_similarity v w + 1) / 2) := by
  unfold HybridScorer._compute_embedding_fallback_prob
  rw [he, hl]

/-- A scorer with `tau = 1` (allowed by the spec's `tau ∈ (0,1]`) and an
embedding for every entity. -/
noncomputable def tauOneScorer : HybridScorer where
  entity_cooccurrence := fun _ _ => 0
  entity_counter := fun _ => 0
  entity_embeddings := fun _ => some [1]
  alpha := 0.01
  tau := 1
  epsilon := 1e-9
  beta := 0.3
  threshold := 1
  total_counts := 0
  r := 0

/-- Claim C8 is false in its "never 1" part: with `tau = 1 ∈ (0,1]` and
`epsilon = 1e-9 > 0`, a perfect cosine match yields exactly `1`. -/
theorem embedding_fallback_one_counterexample :
    0 < tauOneScorer.tau ∧ tauOneScorer.tau ≤ 1 ∧ 0 < tauOneScorer.epsilon ∧
    tauOneScorer._compute_embedding_fallback_prob "e" "l" = 1 := by
  refine ⟨by norm_num [tauOneScorer], by norm_num [tauOneScorer],
    by norm_num [tauOneScorer], ?_⟩
  rw [fallback_eq_of_embeddings tauOneScorer rfl rfl, cosine_one_one]
  norm_num [tauOneScorer]

/-- Claim C8 (amended): for `tau ∈ (0,1]` and `epsilon > 0`,
`_compute_embedding_fallback_prob` is monotone non-decreasing in the cosine
similarity of the two embeddings, bounded above by `max tau epsilon`, equals
exactly `epsilon` when either embedding is missing, and a perfect match
(cosine similarity 1) yields exactly `max epsilon tau` — at most
`max tau epsilon`, and strictly below `1` only when both `tau < 1` and
`epsilon < 1` (with `tau = 1` it is exactly `1`, contrary to the claim's
"never 1"). -/
theorem embedding_fallback_properties (s : HybridScorer)
    (hτ0 : 0 < s.tau) (hτ1 : s.tau ≤ 1) (hε : 0 < s.epsilon) :
    (∀ e1 l1 e2 l2 v1 w1 v2 w2,
      s.entity_embeddings e1 = some v1 → s.entity_embeddings l1 = some w1 →
      s.entity_embeddings e2 = some v2 → s.entity_embeddings l2 = some w2 →
      HybridScorer._cosine_similarity v1 w1 ≤
        HybridScorer._cosine_similarity v2 w2 →
      s._compute_embedding_fallback_prob e1 l1 ≤
        s._compute_embedding_fallback_prob e2 l2) ∧
    (∀ e l, s._compute_embedding_fallback_prob e l ≤ max s.tau s.epsilon) ∧
    (∀ e l, s.entity_embeddings e = none ∨ s.entity_embeddings l = none →
      s._compute_embedding_fallback_prob e l = s.epsilon) ∧
    (∀ e l v w, s.entity_embeddings e = some v →
      s.entity_embeddings l = some w →
      HybridScorer._cosine_similarity v w = 1 →
      s._compute_embedding_fallback_prob e l = max s.epsilon s.tau ∧
      (s.tau < 1 → s.epsilon < 1 →
        s._compute_embedding_fallback_prob e l < 1)) := by
  refine ⟨?_, ?_, ?_, ?_⟩
  · intro e1 l1 e2 l2 v1 w1 v2 w2 he1 hl1 he2 hl2 hcos
    rw [fallback_eq_of_embeddings s he1 hl1, fallback_eq_of_embeddings s he2 hl2]
    apply max_le_max le_rfl
    nlinarith [hτ0, hcos]
  · intro e l
    cases he : s.entity_embeddings e with
    | none =>
        unfold HybridScorer._compute_embedding_fallback_prob
        rw [he]
        exact le_max_right _ _
    | some v =>
        cases hl : s.entity_embeddings l with
        | none =>
            unfold HybridScorer._compute_embedding_fallback_prob
            rw [he, hl]
            exact le_max_right _ _
        | some w =>
            rw [fallback_eq_of_embeddings s he hl]
            apply max_le (le_max_right _ _)
            have hb : s.tau * (HybridScorer._cosine_similarity v w + 1) / 2 ≤
                s.tau := by
              nlinarith [cosine_le_one v w, hτ0]
            exact le_trans hb (le_max_left _ _)
  · intro e l hmiss
    unfold HybridScorer._compute_embedding_fallback_prob
    rcases hmiss with hm | hm
    · rw [hm]
    · rw [hm]
      cases s.entity_embeddings e <;> rfl
  · intro e l v w he hl hcos
    rw [fallback_eq_of_embeddings s he hl, hcos]
    have hτ : s.tau * (1 + 1) / 2 = s.tau := by ring
    rw [hτ]
    exact ⟨rfl, fun ht1 hε1 => max_lt hε1 ht1⟩

theorem embedding_fallback_properties_witness :
    (0 < tauOneScorer.tau ∧ tauOneScorer.tau ≤ 1 ∧ 0 < tauOneScorer.epsilon) ∧
    ((∀ e1 l1 e2 l2 v1 w1 v2 w2,
      tauOneScorer.entity_embeddings e1 = some v1 →
      tauOneScorer.entity_embeddings l1 = some w1 →
      tauOneScorer.entity_embeddings e2 = some v2 →
      tauOneScorer.entity_embeddings l2 = some w2 →
      HybridScorer._cosine_similarity v1 w1 ≤
        HybridScorer._cosine_similarity v2 w2 →
      tauOneScorer._compute_embedding_fallback_prob e1 l1 ≤
        tauOneScorer._compute_embedding_fallback_prob e2 l2) ∧
    (∀ e l, tauOneScorer._compute_embedding_fallback_prob e l ≤
      max tauOneScorer.tau tauOneScorer.epsilon) ∧
    (∀ e l, tauOneScorer.entity_embeddings e = none ∨
        tauOneScorer.entity_embeddings l = none →
      tauOneScorer._compute_embedding_fallback_prob e l =
        tauOneScorer.epsilon) ∧
    (∀ e l v w, tauOneScorer.entity_embeddings e = some v →
      tauOneScorer.entity_embeddings l = some w →
      HybridScorer._cosine_similarity v w = 1 →
      tauOneScorer._compute_embedding_fallback_prob e l =
        max tauOneScorer.epsilon tauOneScorer.tau ∧
      (tauOneScorer.tau < 1 → tauOneScorer.epsilon < 1 →
        tauOneScorer._compute_embedding_fallback_prob e l < 1))) :=
  ⟨⟨by norm_num [tauOneScorer], by norm_num [tauOneScorer],
      by norm_num [tauOneScorer]⟩,
    embedding_fallback_properties tauOneScorer (by norm_num [tauOneScorer])
      (by norm_num [tauOneScorer]) (by norm_num [tauOneScorer])⟩

/-! ### The spec's concrete scenario (claim C9) -/

/-- The spec's scenario: `EntityWeights = {A:10, B:5, C:2}`, total 17,
`CooccurrenceTable[A][B] = 3`, `alpha = 0.01`, `r = 17`, `beta = 0`,
defaults elsewhere. -/
noncomputable def scenarioScorer : HybridScorer where
  entity_cooccurrence := fun e l => if e = "A" ∧ l = "B" then 3 else 0
  entity_counter := fun e =>
    if e = "A" then 10 else if e = "B" then 5 else if e = "C" then 2 else 0
  entity_embeddings := fun _ => none
  alpha := 0.01
  tau := 0.5
  epsilon := 1e-9
  beta := 0
  threshold := 1
  total_counts := 17
  r := 17

theorem scenario_smoothed_val :
    scenarioScorer._compute_smoothed_cooccurrence_prob "A" "B" = 301 / 1017 := by
  have hco : scenarioScorer.entity_cooccurrence "A" "B" = 3 := by
    norm_num [scenarioScorer]
  have hcA : scenarioScorer.entity_counter "A" = 10 := by
    norm_num [scenarioScorer]
  have halpha : scenarioScorer.alpha = 0.01 := rfl
  have hr : scenarioScorer.r = 17 := rfl
  have heps : scenarioScorer.epsilon = 1e-9 := rfl
  simp only [HybridScorer._compute_smoothed_cooccurrence_prob, hco, hcA,
    halpha, hr, heps]
  norm_num

theorem scenario_score_val :
    scenarioScorer.score_entity "A" ["B"] none =
      Real.log (10 / 17) + Real.log (301 / 1017) := by
  have hco : scenarioScorer.entity_cooccurrence "A" "B" = 3 := by
    norm_num [scenarioScorer]
  have hcA : scenarioScorer.entity_counter "A" = 10 := by
    norm_num [scenarioScorer]
  have hthr : scenarioScorer.threshold = 1 := rfl
  have heps : scenarioScorer.epsilon = 1e-9 := rfl
  have hbeta : scenarioScorer.beta = 0 := rfl
  have htot : scenarioScorer.total_counts = 17 := rfl
  simp only [HybridScorer.score_entity, HybridScorer._compute_log_prior,
    HybridScorer._compute_log_likelihood, HybridScorer._select_factor,
    hco, hcA, hthr, heps, hbeta, htot, scenario_smoothed_val,
    List.map_cons, List.map_nil, List.sum_cons, List.sum_nil]
  norm_num

theorem log_ratio_bounds :
    -1.748137 < Real.log ((3010 : ℝ) / 17289) ∧
    Real.log ((3010 : ℝ) / 17289) < -1.748126 := by
  have hxpos : (0 : ℝ) < 6791 / 24080 := by norm_num
  have hx : |(6791 / 24080 : ℝ)| < 1 := by
    rw [abs_of_pos hxpos]
    norm_num
  have hb := Real.abs_log_sub_add_sum_range_le hx 9
  rw [abs_of_pos hxpos] at hb
  have h1mx : (1 : ℝ) - 6791 / 24080 = 17289 / 24080 := by norm_num
  rw [h1mx] at hb
  rw [abs_le] at hb
  have hS_lo : (0.331310 : ℝ) <
      ∑ i ∈ Finset.range 9, (6791 / 24080 : ℝ) ^ (i + 1) / (i + 1) := by
    simp only [Finset.sum_range_succ, Finset.sum_range_zero]
    norm_num
  have hS_hi : (∑ i ∈ Finset.range 9, (6791 / 24080 : ℝ) ^ (i + 1) / (i + 1)) <
      0.331311 := by
    simp only [Finset.sum_range_succ, Finset.sum_range_zero]
    norm_num
  have hE : ((6791 / 24080 : ℝ)) ^ (9 + 1) / (17289 / 24080) < 0.0000045 := by
    norm_num
  have key : Real.log ((3010 : ℝ) / 17289) =
      -(3 * Real.log 2 + Real.log ((17289 : ℝ) / 24080)) := by
    have h8 : Real.log (8 : ℝ) = 3 * Real.log 2 := by
      rw [show (8 : ℝ) = 2 ^ 3 by norm_num, Real.log_pow]
      norm_num
    rw [← h8, ← Real.log_mul (by norm_num) (by norm_num), ← Real.log_inv]
    congr 1
    norm_num
  have hlog2lo := Real.log_two_gt_d9
  have hlog2hi := Real.log_two_lt_d9
  constructor
  · rw [key]
    nlinarith [hb.1, hb.2, hS_lo, hS_hi, hE, hlog2lo, hlog2hi]
  · rw [key]
    nlinarith [hb.1, hb.2, hS_lo, hS_hi, hE, hlog2lo, hlog2hi]

theorem scenario_log_sum_eq :
    Real.log ((10 : ℝ) / 17) + Real.log ((301 : ℝ) / 1017) =
      Real.log ((3010 : ℝ) / 17289) := by
  rw [← Real.log_mul (by norm_num) (by norm_num)]
  norm_num

/-- Claim C9 is false in its decimal approximations.  In the spec's scenario
the smoothed conditional equals `(3+0.01)/(10+0.17) = 301/1017 ≈ 0.29597`,
which differs from the claimed `0.29606` by more than `9·10⁻⁵`, and the score
equals `log(10/17) + log(301/1017) ≈ -1.7481`, which differs from the claimed
`-1.7477` by more than `4·10⁻⁴` — both beyond the displayed precision. -/
theorem scenario_decimals_counterexample :
    scenarioScorer._compute_smoothed_cooccurrence_prob "A" "B" = 301 / 1017 ∧
    (9e-5 : ℝ) < 0.29606 - 301 / 1017 ∧
    scenarioScorer.score_entity "A" ["B"] none < -1.7477 - 4e-4 := by
  refine ⟨scenario_smoothed_val, by norm_num, ?_⟩
  rw [scenario_score_val, scenario_log_sum_eq]
  have h := log_ratio_bounds.2
  linarith

/-- Claim C9 (amended): in the spec's scenario,
`smoothedConditional(A,B) = (3+0.01)/(10+0.17) = 301/1017 ≈ 0.29597`, and with
`beta = 0` and the single-entity local set `["B"]`,
`score(A) = log(10/17) + log(301/1017) ≈ -1.7481` (the spec's `0.29606` and
`-1.7477` are arithmetic slips at their displayed precision). -/
theorem scenario_score_exact :
    scenarioScorer._compute_smoothed_cooccurrence_prob "A" "B" = 301 / 1017 ∧
    |(301 : ℝ) / 1017 - 0.29597| < 5e-6 ∧
    scenarioScorer.score_entity "A" ["B"] none =
      Real.log (10 / 17) + Real.log (301 / 1017) ∧
    |scenarioScorer.score_entity "A" ["B"] none + 1.7481| < 1e-4 := by
  refine ⟨scenario_smoothed_val, by rw [abs_lt]; constructor <;> norm_num,
    scenario_score_val, ?_⟩
  rw [scenario_score_val, scenario_log_sum_eq, abs_lt]
  have h1 := log_ratio_bounds.1
  have h2 := log_ratio_bounds.2
  constructor <;> linarith

/-! ### Local embedding aggregation (claim C5) -/

theorem sum_map_div (l : List ℝ) (c : ℝ) :
    (l.map (fun w => w / c)).sum = l.sum / c := by
  induction l with
  | nil => simp
  | cons a as ih => simp [ih, add_div]

theorem zipWith_add_map_div : ∀ (a b : List ℝ) (c : ℝ),
    List.zipWith (fun x y => x + y) (a.map (fun x => x / c))
        (b.map (fun x => x / c)) =
      (List.zipWith (fun x y => x + y) a b).map (fun x => x / c) := by
  intro a
  induction a with
  | nil => intro b c; simp
  | cons x xs ih =>
      intro b c
      cases b with
      | nil => simp
      | cons y ys =>
          simp only [List.map_cons, List.zipWith_cons_cons, ih]
          rw [add_div]

theorem zipWith_scale_div : ∀ (ws : List ℝ) (rows : List (List ℝ)) (c : ℝ),
    List.zipWith (fun w v => v.map (fun x => w * x))
        (ws.map (fun w => w / c)) rows =
      (List.zipWith (fun w v => v.map (fun x => w * x)) ws rows).map
        (fun v => v.map (fun x => x / c)) := by
  intro ws
  induction ws with
  | nil => intro rows c; simp
  | cons a as ih =>
      intro rows c
      cases rows with
      | nil => simp
      | cons r rs =>
          simp only [List.map_cons, List.zipWith_cons_cons, ih, List.map_map]
          congr 1
          apply List.map_congr_left
          intro x _
          simp only [Function.comp_apply]
          ring

theorem sumVecs_map_div : ∀ (rows : List (List ℝ)) (c : ℝ),
    KnowledgeStore.sumVecs (rows.map (fun v => v.map (fun x => x / c))) =
      (KnowledgeStore.sumVecs rows).map (fun x => x / c) := by
  intro rows
  induction rows with
  | nil => intro c; simp [KnowledgeStore.sumVecs]
  | cons v vs ih =>
      intro c
      cases vs with
      | nil => simp [KnowledgeStore.sumVecs]
      | cons v2 vs2 =>
          simp only [List.map_cons, KnowledgeStore.sumVecs]
          rw [← List.map_cons, ih, zipWith_add_map_div]

/-- A store whose embedding table covers `"b"` (vector `[0]`) and `"c"`
(vector `[1]`) but not `"a"`. -/
noncomputable def embStore : KnowledgeStore where
  knowledge_base := []
  entity_embeddings := fun e =>
    if e = "b" then some [0] else if e = "c" then some [1] else none
  use_hybrid_scoring := true
  alpha := 0.01
  tau := 0.5
  epsilon := 1e-9
  beta := 0.3
  threshold := 1
  r := none

theorem embStore_filterMap :
    (["a", "b", "c"] : List String).filterMap embStore.entity_embeddings =
      [[0], [1]] := by
  have h : embStore.entity_embeddings = fun e =>
      if e = "b" then some [(0 : ℝ)] else if e = "c" then some [1] else none :=
    rfl
  rw [h]
  simp only [List.filterMap_cons, List.filterMap_nil]
  simp

/-- Claim C5 is false in its pairing: with entities `["a","b","c"]`, weights
`[1,2,5]`, and embeddings only for `"b"` and `"c"`, the code pairs the two
surviving embeddings with the weight-list *prefix* `[1,2]`, yielding `[2/3]`,
not with the surviving entities' own weights `[2,5]`, whose weighted mean
would be `[5/7]`. -/
theorem local_embedding_prefix_weights_counterexample :
    embStore._compute_local_embedding ["a", "b", "c"] (some [1, 2, 5]) =
      [2 / 3] ∧
    ((2 : ℝ) * 0 + 5 * 1) / (2 + 5) = 5 / 7 ∧
    ([(2 : ℝ) / 3] : List ℝ) ≠ [(5 : ℝ) / 7] := by
  refine ⟨?_, by norm_num, ?_⟩
  · simp only [KnowledgeStore._compute_local_embedding, embStore_filterMap]
    norm_num [KnowledgeStore.sumVecs]
  · simp only [ne_eq, List.cons.injEq, and_true]
    norm_num

/-- Claim C5 (amended): `_compute_local_embedding` averages exactly the
embeddings of those entities that have one (entities lacking an embedding are
dropped, not zero-filled); it returns the explicit empty (absent) value when
no entity has an embedding; and with weights supplied, the surviving
embeddings are paired **positionally with the first `len(survivors)` supplied
weights** — not with each surviving entity's own weight — the result being
their plain prefix-weighted mean. -/
theorem local_embedding_prefix_weighted_mean (st : KnowledgeStore)
    (local_entities : List String) (ws : List ℝ) (w' : Option (List ℝ)) :
    (local_entities.filterMap st.entity_embeddings = [] →
      st._compute_local_embedding local_entities w' = []) ∧
    (local_entities.filterMap st.entity_embeddings ≠ [] →
      (ws.take (local_entities.filterMap st.entity_embeddings).length).sum ≠ 0 →
      st._compute_local_embedding local_entities (some ws) =
        (KnowledgeStore.sumVecs
          (List.zipWith (fun w v => v.map (fun x => w * x))
            (ws.take (local_entities.filterMap st.entity_embeddings).length)
            (local_entities.filterMap st.entity_embeddings))).map
          (fun x => x /
            (ws.take
              (local_entities.filterMap st.entity_embeddings).length).sum)) := by
  constructor
  · intro h
    simp only [KnowledgeStore._compute_local_embedding, h]
    rfl
  · intro hne hsum
    simp only [KnowledgeStore._compute_local_embedding]
    rw [if_neg (by simpa [List.isEmpty_iff] using hne)]
    rw [zipWith_scale_div, sumVecs_map_div, sum_map_div, div_self hsum]
    simp only [List.map_map]
    apply List.map_congr_left
    intro x _
    simp

theorem local_embedding_prefix_weighted_mean_witness :
    (["a", "b", "c"] : List String).filterMap embStore.entity_embeddings ≠
        [] ∧
    embStore._compute_local_embedding ["a", "b", "c"] (some [1, 2, 5]) =
      (KnowledgeStore.sumVecs
        (List.zipWith (fun w v => v.map (fun x => w * x))
          (([1, 2, 5] : List ℝ).take
            ((["a", "b", "c"] : List String).filterMap
              embStore.entity_embeddings).length)
          ((["a", "b", "c"] : List String).filterMap
            embStore.entity_embeddings))).map
        (fun x => x /
          (([1, 2, 5] : List ℝ).take
            ((["a", "b", "c"] : List String).filterMap
              embStore.entity_embeddings).length).sum) :=
  ⟨by rw [embStore_filterMap]; simp,
    (local_embedding_prefix_weighted_mean embStore ["a", "b", "c"] [1, 2, 5]
        none).2
      (by rw [embStore_filterMap]; simp)
      (by rw [embStore_filterMap]; norm_num)⟩
